import Mathlib

/-!
# A verification model of the `erbasign` data pipeline

This file gives a shallow embedding, in Lean, of the two data pipelines of the
repository:

* the commerce family (`scripts/data_pipeline.py`): cleaning, formatting and
  idempotent import of Customer / Product / Order records, and
* the catalog family (`myapp/data_pipeline.py`): cleaning and import of
  Author / Book / Review records.

Python strings are modelled as Lean `String`s (operating on their character
lists); missing values (`NaN` / `None`) are modelled as `Option`; the record
store is modelled as lists of records with insert-if-absent semantics for
`bulk_create(..., ignore_conflicts=True)`; Python `float` arithmetic is
modelled by rationals together with an explicit round-to-nearest-even
IEEE-754 double rounding function `fl`; `decimal.Decimal` quantities with two
fractional places are modelled as integer cents.

Definitions are translated from the Python source.  Theorems at the end of the
file settle the specification claims.
-/

set_option maxRecDepth 8000

namespace Erbasign

/-! ## Python string primitives

`pyStrip` models `str.strip()`, `pyLower` models `str.lower()` (ASCII, which
covers the pipeline's data), and `astypeStr` models pandas `astype(str)`,
which renders a missing value (`NaN`) as the string `"nan"`. -/

/-- ASCII lower-casing of one character, as Python `str.lower` acts on ASCII. -/
def asciiLower (c : Char) : Char :=
  if 'A' ≤ c ∧ c ≤ 'Z' then Char.ofNat (c.toNat + 32) else c

/-- Strip leading and trailing whitespace from a character list. -/
def trimChars (cs : List Char) : List Char :=
  ((cs.dropWhile Char.isWhitespace).reverse.dropWhile Char.isWhitespace).reverse

/-- Model of Python `str.strip()`. -/
def pyStrip (s : String) : String := String.mk (trimChars s.data)

/-- Model of Python `str.lower()` on ASCII data. -/
def pyLower (s : String) : String := String.mk (s.data.map asciiLower)

/-- Model of pandas `astype(str)`: a missing value becomes the string `"nan"`. -/
def astypeStr (x : Option String) : String :=
  match x with
  | none => "nan"
  | some s => s

/-! ## Generic record-store primitives

`dedupByKey` models pandas `drop_duplicates(keep="first")` and the
seen-set loops of the catalog cleaner; `bulkCreateSkip` models Django
`bulk_create(..., ignore_conflicts=True)` against a unique natural key:
each record is appended unless its key is already present. -/

/-- Keep, in input order, only the first record carrying each key, skipping
keys already in `seen`. -/
def dedupAux {α κ : Type} [DecidableEq κ] (key : α → κ) (seen : List κ) :
    List α → List α
  | [] => []
  | x :: xs =>
    if key x ∈ seen then dedupAux key seen xs
    else x :: dedupAux key (key x :: seen) xs

/-- Deduplicate a list by a key, keeping the first occurrence in input order. -/
def dedupByKey {α κ : Type} [DecidableEq κ] (key : α → κ) (l : List α) : List α :=
  dedupAux key [] l

/-- Insert one record unless its key conflicts with a stored record. -/
def insertNew {α κ : Type} [DecidableEq κ] (key : α → κ) (s : List α) (x : α) :
    List α :=
  if key x ∈ s.map key then s else s ++ [x]

/-- Model of `bulk_create(batch, ignore_conflicts=True)` against a unique key:
records are inserted in order, and a record whose key is already stored
(including keys stored earlier in the same batch) is silently skipped. -/
def bulkCreateSkip {α κ : Type} [DecidableEq κ] (key : α → κ) (s : List α)
    (batch : List α) : List α :=
  batch.foldl (insertNew key) s


/-! ## Normalizer (`scripts/data_pipeline.py`, field-level cleaning)

Raw field values are `Option String`: `none` models a pandas missing value
(`NaN`), for which `pd.isna` is true. -/

/-- `clean_email`: missing becomes `""`; otherwise trim and lower-case. -/
def clean_email (x : Option String) : String :=
  match x with
  | none => ""
  | some s => pyLower (pyStrip s)

/-- `clean_phone`: keep only digits (the `re.sub(r"\D+", "", s)` step); if more
than 8 digits remain, keep the last 8. -/
def clean_phone (x : Option String) : String :=
  match x with
  | none => ""
  | some s =>
    let digits := (pyStrip s).data.filter Char.isDigit
    if digits.length > 8 then String.mk (digits.drop (digits.length - 8))
    else String.mk digits

/-- `clean_bool`: missing or blank defaults to `true`; otherwise membership of
the trimmed lower-cased token in the truthy set. -/
def clean_bool (x : Option String) : Bool :=
  match x with
  | none => true
  | some s =>
    if pyStrip s = "" then true
    else decide (pyLower (pyStrip s) ∈ ["1", "true", "t", "yes", "y"])

/-- `clean_price`: strip currency markers and keep only the characters matching
`[0-9.]`, defaulting to `"0"` when nothing remains.  The intermediate
`replace("HK$", ...)`, `replace("$", ...)` and `replace(",", ...)` steps of the
source delete only characters that the final `re.sub(r"[^0-9.]+", "", s)`
deletes anyway, so the composition is exactly this character filter. -/
def clean_price (x : Option String) : String :=
  match x with
  | none => "0"
  | some s =>
    let t := String.mk ((pyStrip s).data.filter fun c => c.isDigit || c == '.')
    if t = "" then "0" else t

/-! ## Numeric parsing and two-decimal canonicalization

`pd.to_numeric` and `decimal.Decimal` string parsing are modelled on plain
(unsigned or signed) decimal digit strings, which covers every string the
pipeline's earlier stages can produce.  A `Decimal` with two fractional
places is represented by its integer number of cents. -/

/-- Value of a list of decimal digit characters. -/
def digitsToNat (cs : List Char) : Nat :=
  cs.foldl (fun a c => 10 * a + (c.toNat - '0'.toNat)) 0

/-- Parse an unsigned decimal string (digits with at most one dot, at least one
digit), as `Decimal(...)` / `float(...)` accept it (`"1."`, `".5"`). -/
def parseUnsignedQ (cs : List Char) : Option ℚ :=
  if cs.all (fun c => c.isDigit || c == '.') ∧
      ((cs.filter (fun c => c == '.')).length ≤ 1) ∧ cs.any Char.isDigit then
    let ip := cs.takeWhile (fun c => c ≠ '.')
    let fp := (cs.dropWhile (fun c => c ≠ '.')).drop 1
    some ((digitsToNat ip : ℚ) + (digitsToNat fp : ℚ) / ((10 ^ fp.length : ℕ) : ℚ))
  else none

/-- Model of `pd.to_numeric(..., errors="coerce")` on a stripped string:
`none` is the coerced `NaN`. -/
def parseNumericQ (s : String) : Option ℚ :=
  match s.data with
  | '-' :: rest => (parseUnsignedQ rest).map (fun q => -q)
  | '+' :: rest => parseUnsignedQ rest
  | cs => parseUnsignedQ cs

/-- Truncation toward zero, as numpy `astype(int)` casts a float to int. -/
def truncInt (q : ℚ) : ℤ := if 0 ≤ q then q.floor else -(-q).floor

/-- The cleaned order quantity: `astype(str).str.strip()`, then
`pd.to_numeric(errors="coerce").fillna(1).astype(int)`. -/
def cleanQuantity (x : Option String) : ℤ :=
  match parseNumericQ (pyStrip (astypeStr x)) with
  | none => 1
  | some q => truncInt q

/-- Quantize to cents with `ROUND_HALF_EVEN`, the default `decimal` context
rounding used by `Decimal.quantize(Decimal("0.01"))` in `to_decimal_str`. -/
def halfEvenCents (q : ℚ) : ℤ :=
  let x := 100 * q
  let n := x.floor
  let f := x - n
  if f < 1 / 2 then n
  else if 1 / 2 < f then n + 1
  else if n % 2 = 0 then n else n + 1

/-- Quantize to cents with `ROUND_HALF_UP` (ties away from zero), as
`_safe_price` requests explicitly. -/
def halfUpCents (q : ℚ) : ℤ :=
  if 0 ≤ q then (100 * q + 1 / 2).floor else -(100 * (-q) + 1 / 2).floor

/-- Decimal digit string of a natural number. -/
def natDigits (n : Nat) : List Char := Nat.toDigits 10 n

/-- Two-digit zero-padded rendering. -/
def pad2 (n : Nat) : List Char := if n < 10 then '0' :: natDigits n else natDigits n

/-- Render a non-negative number of cents the way `str` renders a `Decimal`
quantized to two places (`1299` ↦ `"12.99"`, `12` ↦ `"0.12"`). -/
def centsToDecString (n : ℤ) : String :=
  let m := n.toNat
  String.mk (natDigits (m / 100) ++ '.' :: pad2 (m % 100))

/-- `to_decimal_str`: `str(Decimal(x).quantize(Decimal("0.01")))` with the
default (half-even) context rounding, and `"0.00"` when parsing fails. -/
def to_decimal_str (s : String) : String :=
  match parseUnsignedQ s.data with
  | none => "0.00"
  | some q => centsToDecString (halfEvenCents q)

/-! ## IEEE-754 double arithmetic

`_safe_price` computes `views / 120 + likes / 15 - dislikes / 25` in Python
`float`s.  A finite double is a rational; `fl` rounds an exact rational to
the nearest representable double (53-bit significand, ties to even), which
is exactly what each `int / int` division and each `+`/`-` produces.
Exponent overflow/underflow is outside the modelled range (the pipeline's
counts are small). -/

/-- Fuelled base-2 logarithm (`⌊log₂ n⌋` for `n ≥ 1`). -/
def log2Fuel : Nat → Nat → Nat
  | 0, _ => 0
  | fuel + 1, n => if n ≥ 2 then log2Fuel fuel (n / 2) + 1 else 0

/-- `⌊log₂ n⌋` via fuelled recursion (kernel-reducible). -/
def myLog2 (n : Nat) : Nat := log2Fuel n n

/-- `2 ^ k` as a rational, for integer `k`. -/
def qpow2 (k : ℤ) : ℚ :=
  if 0 ≤ k then (((2 ^ k.toNat : ℕ) : ℤ) : ℚ)
  else 1 / (((2 ^ (-k).toNat : ℕ) : ℤ) : ℚ)

/-- `⌊log₂ q⌋` of a positive rational. -/
def floorLog2Pos (q : ℚ) : ℤ :=
  let k : ℤ := (myLog2 q.num.toNat : ℤ) - (myLog2 q.den : ℤ)
  if qpow2 (k + 1) ≤ q then k + 1 else if qpow2 k ≤ q then k else k - 1

/-- Round a rational to the nearest integer, ties to even. -/
def roundHalfEvenInt (q : ℚ) : ℤ :=
  let n := q.floor
  let f := q - (n : ℚ)
  if f < 1 / 2 then n
  else if 1 / 2 < f then n + 1
  else if n % 2 = 0 then n else n + 1

/-- Round an exact rational to the nearest IEEE-754 double
(round-to-nearest, ties-to-even on a 53-bit significand). -/
def fl (q : ℚ) : ℚ :=
  if q = 0 then 0
  else if 0 < q then
    let e := floorLog2Pos q - 52
    qpow2 e * (roundHalfEvenInt (q / qpow2 e) : ℚ)
  else
    -(let e := floorLog2Pos (-q) - 52
      qpow2 e * (roundHalfEvenInt ((-q) / qpow2 e) : ℚ))

/-! ## Date normalization (`clean_date`)

`clean_date` tries `datetime.strptime` against the four formats
`%Y-%m-%d`, `%Y/%m/%d`, `%d-%m-%Y`, `%d/%m/%Y` in order and returns the
`date().isoformat()` of the first success, or `""` when all fail.
CPython's `strptime` matches `%Y` against exactly four digits and `%m`/`%d`
against one or two digits in range, requires the whole string to be
consumed, and `datetime.date` then validates the day against the month
and (proleptic Gregorian) leap years, with years 1–9999. -/

/-- Split a character list on a separator character (like `str.split(sep)`:
`"a--b"` gives three fields, the middle one empty). -/
def splitOnChar (sep : Char) : List Char → List (List Char)
  | [] => [[]]
  | c :: cs =>
    match splitOnChar sep cs with
    | [] => [[]]
    | g :: gs => if c = sep then [] :: g :: gs else (c :: g) :: gs

/-- Gregorian leap-year rule, as `datetime` uses. -/
def isLeap (y : Nat) : Bool := y % 4 = 0 && (y % 100 ≠ 0 || y % 400 = 0)

/-- Length of a month, as `datetime.date` validates it. -/
def daysInMonth (y m : Nat) : Nat :=
  if m = 2 then (if isLeap y then 29 else 28)
  else if m = 4 ∨ m = 6 ∨ m = 9 ∨ m = 11 then 30
  else 31

/-- The two field orders among the four supported formats. -/
inductive DateOrder where
  | ymd
  | dmy
deriving DecidableEq

/-- `date(y, m, d).isoformat()`: zero-padded `YYYY-MM-DD`. -/
def isoFormat (y m d : Nat) : String :=
  let pad4 := fun (n : Nat) =>
    if n < 10 then '0' :: '0' :: '0' :: natDigits n
    else if n < 100 then '0' :: '0' :: natDigits n
    else if n < 1000 then '0' :: natDigits n
    else natDigits n
  String.mk (pad4 y ++ '-' :: pad2 m ++ '-' :: pad2 d)

/-- One `strptime(s, fmt).date().isoformat()` attempt for a format made of a
field order and a separator: the string must split into exactly three fields,
the year field must be exactly four digits, month and day fields one or two
digits with values in range, and the calendar day must exist. -/
def strptimeDate (ord : DateOrder) (sep : Char) (s : String) : Option String :=
  match splitOnChar sep s.data with
  | [f1, f2, f3] =>
    let ys := match ord with | .ymd => f1 | .dmy => f3
    let ds := match ord with | .ymd => f3 | .dmy => f1
    let ms := f2
    if ys.all Char.isDigit ∧ ms.all Char.isDigit ∧ ds.all Char.isDigit ∧
        ys.length = 4 ∧ 1 ≤ ms.length ∧ ms.length ≤ 2 ∧
        1 ≤ ds.length ∧ ds.length ≤ 2 then
      let y := digitsToNat ys
      let m := digitsToNat ms
      let d := digitsToNat ds
      if 1 ≤ y ∧ 1 ≤ m ∧ m ≤ 12 ∧ 1 ≤ d ∧ d ≤ daysInMonth y m then
        some (isoFormat y m d)
      else none
    else none
  | _ => none

/-- The ordered format list of `clean_date`. -/
def dateFormats : List (DateOrder × Char) :=
  [(.ymd, '-'), (.ymd, '/'), (.dmy, '-'), (.dmy, '/')]

/-- The `for fmt in (...): try ... except ValueError: continue` loop. -/
def tryFormats : List (DateOrder × Char) → String → Option String
  | [], _ => none
  | (ord, sep) :: rest, s =>
    match strptimeDate ord sep s with
    | some r => some r
    | none => tryFormats rest s

/-- `clean_date`: missing becomes `""`; otherwise strip, try the four formats
in order, and return `""` when none parses. -/
def clean_date (x : Option String) : String :=
  match x with
  | none => ""
  | some s => (tryFormats dateFormats (pyStrip s)).getD ""

/-! ## Family A records and the Record Cleaner (`cmd_clean`)

A raw CSV cell is an `Option String` (`none` = missing/NaN).  Cleaned and
formatted records share the column sets of the intermediate files. -/

structure RawCustomer where
  full_name : Option String
  email : Option String
  phone : Option String

structure Customer where
  full_name : String
  email : String
  phone : String
deriving DecidableEq

structure RawProduct where
  sku : Option String
  name : Option String
  price : Option String
  is_active : Option String

/-- A product row; `price` stays a decimal string, as in the intermediate
files (the loader's `Decimal` value prints back to the same string). -/
structure Product where
  sku : String
  name : String
  price : String
  is_active : Bool
deriving DecidableEq

structure RawOrder where
  customer_email : Option String
  product_sku : Option String
  quantity : Option String
  order_date : Option String
  note : Option String

/-- An order row.  The full record is its own identity tuple
`(customer_email, product_sku, quantity, order_date, note)`. -/
structure OrderRec where
  customer_email : String
  product_sku : String
  quantity : ℤ
  order_date : String
  note : String
deriving DecidableEq

/-- Field cleaning of one customer row. -/
def cleanCustomerRow (r : RawCustomer) : Customer :=
  { full_name := pyStrip (astypeStr r.full_name)
    email := clean_email r.email
    phone := clean_phone r.phone }

/-- Customers: clean fields, drop rows without email, deduplicate by email
keeping the first occurrence. -/
def cleanCustomers (rows : List RawCustomer) : List Customer :=
  dedupByKey (fun c => c.email)
    ((rows.map cleanCustomerRow).filter fun c => decide (c.email ≠ ""))

/-- Field cleaning of one product row. -/
def cleanProductRow (r : RawProduct) : Product :=
  { sku := pyStrip (astypeStr r.sku)
    name := pyStrip (astypeStr r.name)
    price := clean_price r.price
    is_active := clean_bool r.is_active }

/-- Products: clean fields, deduplicate by SKU keeping the first occurrence. -/
def cleanProducts (rows : List RawProduct) : List Product :=
  dedupByKey (fun p => p.sku) (rows.map cleanProductRow)

/-- Field cleaning of one order row. -/
def cleanOrderRow (r : RawOrder) : OrderRec :=
  { customer_email := clean_email r.customer_email
    product_sku := pyStrip (astypeStr r.product_sku)
    quantity := cleanQuantity r.quantity
    order_date := clean_date r.order_date
    note := pyStrip (astypeStr r.note) }

/-- Orders: clean fields, keep only rows with email, SKU and date present. -/
def cleanOrders (rows : List RawOrder) : List OrderRec :=
  (rows.map cleanOrderRow).filter fun o =>
    decide (o.customer_email ≠ "") && decide (o.product_sku ≠ "") &&
      decide (o.order_date ≠ "")

/-! ## The clean stage as a whole (`cmd_clean` control flow)

`cmd_clean` reads the three raw files in a fixed order and writes each
cleaned file before reading the next raw file; a missing raw file raises
`FileNotFoundError` inside `pd.read_csv`, aborting the stage at that point.
The file-system effect is modelled by which raw files exist and which
cleaned files have been written when the stage stops. -/

structure RawFilesA where
  customers : Bool
  products : Bool
  orders : Bool

structure CleanRun where
  ok : Bool
  written : List String
deriving DecidableEq

/-- The observable effect of one `cmd_clean` invocation: reads and writes
interleave as in the source (customers read/written, then products, then
orders), so the files written before the first missing input remain. -/
def cmd_clean (fs : RawFilesA) : CleanRun :=
  if fs.customers = false then ⟨false, []⟩
  else if fs.products = false then ⟨false, ["customers_cleaned.csv"]⟩
  else if fs.orders = false then
    ⟨false, ["customers_cleaned.csv", "products_cleaned.csv"]⟩
  else ⟨true, ["customers_cleaned.csv", "products_cleaned.csv",
               "orders_cleaned.csv"]⟩

/-! ## Schema Formatter (`cmd_format`)

Customers and orders are pure column projections (identity on the modelled
columns).  Products additionally canonicalize the price — but `cmd_format`
re-reads `products_cleaned.csv` with `pd.read_csv`, so what `to_decimal_str`
receives depends on the dtype pandas infers for the whole price column:
`clean_price` emits only digits and dots, so an all-parseable column is
numeric — `float64` when any entry contains a decimal point (each cell is
then the IEEE-754 double nearest the written string), `int64` when none
does — while a column with an unparseable entry (`"1.2.3"`, `"."`) stays
`object` and keeps the strings. -/

def formatCustomers (l : List Customer) : List Customer := l

/-- The dtype pandas infers for the cleaned price column. -/
inductive PriceColKind where
  | floatCol
  | intCol
  | objCol
deriving DecidableEq

/-- Column-level dtype inference for the price strings `clean_price` emits. -/
def priceColKind (prices : List String) : PriceColKind :=
  if prices.all fun s => (parseUnsignedQ s.data).isSome then
    if prices.any fun s => s.data.contains '.' then PriceColKind.floatCol
    else PriceColKind.intCol
  else PriceColKind.objCol

/-- `to_decimal_str` on a `float64` cell: `Decimal(x)` converts the double
exactly, so the emitted string is the half-even cent quantization of the
IEEE-754 double nearest the cleaned price string. -/
def to_decimal_str_float (q : ℚ) : String :=
  centsToDecString (halfEvenCents (fl q))

/-- The products part of `cmd_format`: `to_decimal_str` is applied to what
the re-read column delivers — the nearest double for a `float64` column;
the original string for an `object` column; and a numpy `int64` for an
all-integer column, a type the `Decimal` constructor rejects with
`TypeError`, so every such row takes the `"0.00"` fallback. -/
def formatProducts (l : List Product) : List Product :=
  match priceColKind (l.map fun p => p.price) with
  | PriceColKind.floatCol => l.map fun p =>
      { p with price := to_decimal_str_float ((parseUnsignedQ p.price.data).getD 0) }
  | PriceColKind.intCol => l.map fun p => { p with price := "0.00" }
  | PriceColKind.objCol => l.map fun p => { p with price := to_decimal_str p.price }

def formatOrders (l : List OrderRec) : List OrderRec := l

/-! ## Referential Loader (`cmd_import`)

The store is three lists of rows; unique keys are Customer.email and
Product.sku.  Orders have no unique constraint; the loader itself
deduplicates them against the stored tuple set. -/

structure StoreA where
  customers : List Customer
  products : List Product
  orders : List OrderRec
deriving DecidableEq

structure BatchA where
  customers : List Customer
  products : List Product
  orders : List OrderRec

/-- Customers part of `cmd_import`: query the stored emails among the batch
emails, filter them out, then `bulk_create(..., ignore_conflicts=True)`. -/
def importCustomers (stored : List Customer) (batch : List Customer) :
    List Customer :=
  let batchEmails : List String := batch.map fun c => c.email
  let existing : List String := (stored.map fun c => c.email).filter fun e =>
    decide (e ∈ batchEmails)
  let toCreate := batch.filter fun c => decide (c.email ∉ existing)
  bulkCreateSkip (fun c => c.email) stored toCreate

/-- The product row built from a formatted file row (`str(...).strip()` on
sku and name, price parsed as `Decimal`). -/
def mkProduct (r : Product) : Product :=
  { sku := pyStrip r.sku
    name := pyStrip r.name
    price := r.price
    is_active := r.is_active }

/-- Products part of `cmd_import`: skip batch rows whose trimmed SKU is in
the stored-SKU query result, then bulk create ignoring conflicts. -/
def importProducts (stored : List Product) (batch : List Product) :
    List Product :=
  let batchSkus : List String := batch.map fun p => p.sku
  let existing : List String := (stored.map fun p => p.sku).filter fun k =>
    decide (k ∈ batchSkus)
  let toCreate := (batch.filter fun r => decide (pyStrip r.sku ∉ existing)).map
    mkProduct
  bulkCreateSkip (fun p => p.sku) stored toCreate

/-- The stored order built from a formatted file row (note is
`str(...).strip()`-ed again; the ISO date round-trips through `strptime`). -/
def mkOrder (r : OrderRec) : OrderRec := { r with note := pyStrip r.note }

/-- The orders surviving in-file tuple deduplication and parent resolution:
a row whose customer email or product SKU has no stored parent is dropped. -/
def resolvedOrders (customers : List Customer) (products : List Product)
    (batch : List OrderRec) : List OrderRec :=
  ((dedupByKey (fun o => o) batch).filter fun r =>
    decide (∃ c ∈ customers, c.email = r.customer_email) &&
      decide (∃ p ∈ products, p.sku = r.product_sku)).map mkOrder

/-- Orders part of `cmd_import`: drop in-file duplicate tuples, resolve the
customer and product (dropping rows whose parent is missing), then insert
only tuples absent from the stored tuple set. -/
def importOrders (customers : List Customer) (products : List Product)
    (stored : List OrderRec) (batch : List OrderRec) : List OrderRec :=
  stored ++ (resolvedOrders customers products batch).filter fun o =>
    decide (o ∉ stored)

/-- The whole import stage: customers, then products, then orders (orders
resolve their parents against the store as updated by this same run). -/
def cmd_import (s : StoreA) (b : BatchA) : StoreA :=
  let cs := importCustomers s.customers b.customers
  let ps := importProducts s.products b.products
  ⟨cs, ps, importOrders cs ps s.orders b.orders⟩

/-! ## Family B (`myapp/data_pipeline.py`): raw records

JSON objects are modelled with `Option` for possibly-missing string fields;
the numeric reaction counts carry their `.get(..., 0) or 0` defaults. -/

structure RawUser where
  id : ℤ
  firstName : Option String
  lastName : Option String
  username : Option String
  company_title : Option String
  company_name : Option String
  university : Option String

structure Author where
  id : ℤ
  name : String
  bio : String
deriving DecidableEq

structure RawPost where
  id : ℤ
  userId : Option ℤ
  title : Option String
  views : ℤ
  likes : ℤ
  dislikes : ℤ

/-- A book row; `price` is in cents (a `Decimal` with two places). -/
structure Book where
  id : ℤ
  title : String
  author_id : Option ℤ
  price : ℤ
deriving DecidableEq

structure RawComment where
  id : ℤ
  postId : Option ℤ
  likes : ℤ
  body : Option String

structure Review where
  id : ℤ
  book_id : ℤ
  content : String
  rating : ℤ
deriving DecidableEq

/-- `_norm_text`: falsy (missing or empty) becomes the fallback, anything
else is stripped (so a pure-whitespace value strips to `""`, not the
fallback). -/
def norm_text (v : Option String) (fallback : String) : String :=
  match v with
  | none => fallback
  | some s => if s = "" then fallback else pyStrip s

/-- Join the non-empty strings of a list with a separator
(`sep.join(x for x in parts if x)`). -/
def joinNonEmpty (sep : String) (parts : List String) : String :=
  let rec go : List String → String
    | [] => ""
    | [x] => x
    | x :: xs => x ++ sep ++ go xs
  go (parts.filter fun p => decide (p ≠ ""))

/-- Decimal rendering of an integer (`f"{id}"`). -/
def intStr (n : ℤ) : String :=
  if 0 ≤ n then String.mk (natDigits n.toNat)
  else String.mk ('-' :: natDigits (-n).toNat)

/-- `_safe_price`, in cents: the popularity heuristic evaluated in double
precision, floored at 5.0, then quantized half-up to two places
(`Decimal(float)` converts the double exactly). -/
def safe_price (views likes dislikes : ℤ) : ℤ :=
  let raw := fl (fl (fl ((views : ℚ) / 120) + fl ((likes : ℚ) / 15)) -
    fl ((dislikes : ℚ) / 25))
  let price := max raw 5
  halfUpCents price

/-! ## Family B cleaners and `import_data` -/

/-- The author built from one (first-occurrence) user object. -/
def authorOfUser (u : RawUser) : Author :=
  let full_name := joinNonEmpty " "
    [norm_text u.firstName "", norm_text u.lastName ""]
  let name :=
    if full_name ≠ "" then full_name
    else if norm_text u.username "" ≠ "" then norm_text u.username ""
    else "User " ++ intStr u.id
  let bio := joinNonEmpty " | "
    [norm_text u.company_title "", norm_text u.company_name "",
     norm_text u.university ""]
  { id := u.id
    name := String.mk (name.data.take 100)
    bio := String.mk ((if bio ≠ "" then bio else "No bio provided.").data.take 500) }

/-- `_clean_authors`: deduplicate users by id (first wins), then build. -/
def clean_authors (users : List RawUser) : List Author :=
  (dedupByKey (fun u => u.id) users).map authorOfUser

/-- The book built from one post, given the accepted author ids (a book
whose `userId` is absent from the accepted set is reassigned to
`next(iter(author_ids), None)`, the first accepted id if any). -/
def bookOfPost (author_ids : List ℤ) (p : RawPost) : Book :=
  let aid : Option ℤ :=
    match p.userId with
    | some v => if v ∈ author_ids then some v else author_ids.head?
    | none => author_ids.head?
  { id := p.id
    title := String.mk
      ((norm_text p.title ("Untitled " ++ intStr p.id)).data.take 200)
    author_id := aid
    price := safe_price p.views p.likes p.dislikes }

/-- `_clean_books`: every post yields a book (none are dropped). -/
def clean_books (posts : List RawPost) (author_ids : List ℤ) : List Book :=
  posts.map (bookOfPost author_ids)

/-- The review built from one comment, given its resolved book id.
`rating = max(1, min(5, likes // 2 + 1))` with Python floor division. -/
def reviewOfComment (c : RawComment) (bid : ℤ) : Review :=
  { id := c.id
    book_id := bid
    content := norm_text c.body "No content provided."
    rating := max 1 (min 5 (Int.fdiv c.likes 2 + 1)) }

/-- `_clean_reviews`: a comment whose `postId` is not an accepted book id is
dropped. -/
def clean_reviews (comments : List RawComment) (book_ids : List ℤ) :
    List Review :=
  comments.filterMap fun c =>
    match c.postId with
    | some b => if b ∈ book_ids then some (reviewOfComment c b) else none
    | none => none

structure StoreB where
  authors : List Author
  books : List Book
  reviews : List Review
deriving DecidableEq

def emptyStoreB : StoreB := ⟨[], [], []⟩

/-- `reset_tables`: delete all reviews, then books, then authors. -/
def reset_tables (_s : StoreB) : StoreB := emptyStoreB

/-- `import_data`: load the three JSON inputs, **reset the tables**, then
clean and bulk-insert authors, books (against the stored author ids) and
reviews (against the stored book ids), each with `ignore_conflicts=True`. -/
def import_data (users : List RawUser) (posts : List RawPost)
    (comments : List RawComment) (s : StoreB) : StoreB :=
  let s0 := reset_tables s
  let authorsStore := bulkCreateSkip (fun a => a.id) s0.authors
    (clean_authors users)
  let author_ids : List ℤ := authorsStore.map fun a => a.id
  let booksStore := bulkCreateSkip (fun b => b.id) s0.books
    (clean_books posts author_ids)
  let book_ids : List ℤ := booksStore.map fun b => b.id
  let reviewsStore := bulkCreateSkip (fun r => r.id) s0.reviews
    (clean_reviews comments book_ids)
  ⟨authorsStore, booksStore, reviewsStore⟩

/-! ## Lemmas about the generic store and dedup primitives -/

section StoreLemmas

variable {α κ : Type} [DecidableEq κ] {key : α → κ}

theorem mem_keys_insertNew {k : κ} {s : List α} {x : α}
    (h : k ∈ s.map key) : k ∈ (insertNew key s x).map key := by
  unfold insertNew
  split
  · exact h
  · simpa using Or.inl h

theorem self_mem_keys_insertNew {s : List α} (x : α) :
    key x ∈ (insertNew key s x).map key := by
  unfold insertNew
  split
  · assumption
  · simp

theorem mem_keys_bulkCreateSkip_left {k : κ} {b : List α} :
    ∀ {s : List α}, k ∈ s.map key → k ∈ (bulkCreateSkip key s b).map key := by
  induction b with
  | nil => intro s h; simpa [bulkCreateSkip] using h
  | cons x xs ih =>
    intro s h
    simpa [bulkCreateSkip] using ih (mem_keys_insertNew h)

theorem mem_keys_bulkCreateSkip_batch {b : List α} {x : α} (hx : x ∈ b) :
    ∀ {s : List α}, key x ∈ (bulkCreateSkip key s b).map key := by
  induction b with
  | nil => cases hx
  | cons y ys ih =>
    intro s
    rcases List.mem_cons.mp hx with rfl | hmem
    · simpa [bulkCreateSkip] using
        mem_keys_bulkCreateSkip_left (self_mem_keys_insertNew x)
    · simpa [bulkCreateSkip] using ih hmem

theorem bulkCreateSkip_eq_self {b : List α} :
    ∀ {s : List α}, (∀ x ∈ b, key x ∈ s.map key) → bulkCreateSkip key s b = s := by
  induction b with
  | nil => intro s _; rfl
  | cons x xs ih =>
    intro s h
    have hx : insertNew key s x = s := by
      unfold insertNew
      simp [h x (List.mem_cons_self x xs)]
    calc bulkCreateSkip key s (x :: xs)
        = bulkCreateSkip key (insertNew key s x) xs := rfl
      _ = bulkCreateSkip key s xs := by rw [hx]
      _ = s := ih fun y hy => h y (List.mem_cons_of_mem x hy)

theorem prefix_insertNew (s : List α) (x : α) : s <+: insertNew key s x := by
  unfold insertNew
  split
  · exact List.prefix_refl s
  · exact ⟨[x], rfl⟩

theorem prefix_bulkCreateSkip (b : List α) :
    ∀ s : List α, s <+: bulkCreateSkip key s b := by
  induction b with
  | nil => intro s; exact List.prefix_refl s
  | cons x xs ih =>
    intro s
    exact List.IsPrefix.trans (prefix_insertNew s x) (ih (insertNew key s x))

end StoreLemmas

section DedupLemmas

variable {α κ : Type} [DecidableEq κ] {key : α → κ}

theorem dedupAux_sublist (seen : List κ) :
    ∀ l : List α, List.Sublist (dedupAux key seen l) l := by
  intro l
  induction l generalizing seen with
  | nil => simp [dedupAux]
  | cons x xs ih =>
    unfold dedupAux
    split
    · exact List.Sublist.cons x (ih seen)
    · exact List.Sublist.cons₂ x (ih (key x :: seen))

theorem dedupAux_keys_nodup_and_fresh :
    ∀ (l : List α) (seen : List κ),
      ((dedupAux key seen l).map key).Nodup ∧
        ∀ x ∈ dedupAux key seen l, key x ∉ seen := by
  intro l
  induction l with
  | nil => intro seen; simp [dedupAux]
  | cons x xs ih =>
    intro seen
    unfold dedupAux
    split
    · exact ⟨(ih seen).1, fun y hy => (ih seen).2 y hy⟩
    · rename_i hnot
      refine ⟨?_, ?_⟩
      · refine List.nodup_cons.mpr ⟨?_, (ih (key x :: seen)).1⟩
        intro hmem
        rcases List.mem_map.mp hmem with ⟨y, hy, hkey⟩
        exact (ih (key x :: seen)).2 y hy (hkey ▸ List.mem_cons_self _ _)
      · intro y hy
        rcases List.mem_cons.mp hy with rfl | hmem
        · exact hnot
        · intro hsin
          exact (ih (key x :: seen)).2 y hmem (List.mem_cons_of_mem _ hsin)

/-- Every record kept by `dedupAux` is the first record of the input carrying
its key, among records whose key is not already in `seen`. -/
theorem dedupAux_first_occurrence :
    ∀ (l : List α) (seen : List κ) (x : α), x ∈ dedupAux key seen l →
      ∃ pre post, l = pre ++ x :: post ∧
        ∀ y ∈ pre, key y ∈ seen ∨ key y ≠ key x := by
  intro l
  induction l with
  | nil => intro seen x hx; cases hx
  | cons c cs ih =>
    intro seen x hx
    unfold dedupAux at hx
    split at hx
    · rename_i hseen
      rcases ih seen x hx with ⟨pre, post, hEq, hPre⟩
      refine ⟨c :: pre, post, by simp [hEq], ?_⟩
      intro y hy
      rcases List.mem_cons.mp hy with rfl | hmem
      · exact Or.inl hseen
      · exact hPre y hmem
    · rename_i hnew
      rcases List.mem_cons.mp hx with rfl | hmem
      · exact ⟨[], cs, rfl, by simp⟩
      · rcases ih (key c :: seen) x hmem with ⟨pre, post, hEq, hPre⟩
        have hxfresh : key x ∉ key c :: seen :=
          (dedupAux_keys_nodup_and_fresh cs (key c :: seen)).2 x hmem
        have hxc : key x ≠ key c := fun h => hxfresh (h ▸ List.mem_cons_self _ _)
        refine ⟨c :: pre, post, by simp [hEq], ?_⟩
        intro y hy
        rcases List.mem_cons.mp hy with rfl | hmem'
        · exact Or.inr fun h => hxc h.symm
        · rcases hPre y hmem' with hin | hne
          · rcases List.mem_cons.mp hin with h | h
            · exact Or.inr fun hxy => hxc ((hxy ▸ h : key x = key c))
            · exact Or.inl h
          · exact Or.inr hne

/-- Every input record's key survives deduplication (on some record). -/
theorem dedupAux_complete :
    ∀ (l : List α) (seen : List κ) (r : α), r ∈ l →
      key r ∈ seen ∨ key r ∈ (dedupAux key seen l).map key := by
  intro l
  induction l with
  | nil => intro seen r hr; cases hr
  | cons c cs ih =>
    intro seen r hr
    unfold dedupAux
    split
    · rename_i hseen
      rcases List.mem_cons.mp hr with rfl | hmem
      · exact Or.inl hseen
      · exact ih seen r hmem
    · rcases List.mem_cons.mp hr with rfl | hmem
      · exact Or.inr (by simp)
      · rcases ih (key c :: seen) r hmem with hin | hin
        · rcases List.mem_cons.mp hin with h | h
          · exact Or.inr (by simp [h])
          · exact Or.inl h
        · exact Or.inr (by simp [hin])

theorem dedupByKey_sublist (l : List α) : List.Sublist (dedupByKey key l) l :=
  dedupAux_sublist [] l

theorem dedupByKey_keys_nodup (l : List α) :
    ((dedupByKey key l).map key).Nodup :=
  (dedupAux_keys_nodup_and_fresh l []).1

theorem dedupByKey_first_occurrence {l : List α} {x : α}
    (hx : x ∈ dedupByKey key l) :
    ∃ pre post, l = pre ++ x :: post ∧ ∀ y ∈ pre, key y ≠ key x := by
  rcases dedupAux_first_occurrence l [] x hx with ⟨pre, post, hEq, hPre⟩
  exact ⟨pre, post, hEq, fun y hy => (hPre y hy).resolve_left (by simp)⟩

theorem dedupByKey_complete {l : List α} {r : α} (hr : r ∈ l) :
    key r ∈ (dedupByKey key l).map key :=
  (dedupAux_complete l [] r hr).resolve_left (by simp)

end DedupLemmas

/-! ## Lemmas about the import stage (family A) -/

theorem importCustomers_email_mem {stored batch : List Customer}
    {c : Customer} (hc : c ∈ batch) :
    c.email ∈ (importCustomers stored batch).map (fun c => c.email) := by
  unfold importCustomers
  by_cases hmem : c.email ∈ (stored.map fun c => c.email).filter
      (fun e => decide (e ∈ batch.map fun c => c.email))
  · exact mem_keys_bulkCreateSkip_left (List.mem_of_mem_filter hmem)
  · exact mem_keys_bulkCreateSkip_batch
      (List.mem_filter.mpr ⟨hc, by simpa using hmem⟩)

theorem importCustomers_absorbed {s' batch : List Customer}
    (h : ∀ c ∈ batch, c.email ∈ s'.map (fun c => c.email)) :
    importCustomers s' batch = s' := by
  unfold importCustomers
  exact bulkCreateSkip_eq_self fun x hx => h x (List.mem_of_mem_filter hx)

theorem importCustomers_idem (stored batch : List Customer) :
    importCustomers (importCustomers stored batch) batch =
      importCustomers stored batch :=
  importCustomers_absorbed fun _ hc => importCustomers_email_mem hc

theorem importProducts_sku_mem {stored batch : List Product}
    {r : Product} (hr : r ∈ batch) :
    pyStrip r.sku ∈ (importProducts stored batch).map (fun p => p.sku) := by
  unfold importProducts
  by_cases hmem : pyStrip r.sku ∈ (stored.map fun p => p.sku).filter
      (fun k => decide (k ∈ batch.map fun p => p.sku))
  · exact mem_keys_bulkCreateSkip_left (List.mem_of_mem_filter hmem)
  · exact mem_keys_bulkCreateSkip_batch
      (List.mem_map.mpr ⟨r, List.mem_filter.mpr ⟨hr, by simpa using hmem⟩, rfl⟩)

theorem importProducts_absorbed {s' batch : List Product}
    (h : ∀ r ∈ batch, pyStrip r.sku ∈ s'.map (fun p => p.sku)) :
    importProducts s' batch = s' := by
  unfold importProducts
  apply bulkCreateSkip_eq_self
  intro x hx
  rcases List.mem_map.mp hx with ⟨r, hr, rfl⟩
  exact h r (List.mem_of_mem_filter hr)

theorem importProducts_idem (stored batch : List Product) :
    importProducts (importProducts stored batch) batch =
      importProducts stored batch :=
  importProducts_absorbed fun _ hr => importProducts_sku_mem hr

theorem mem_importOrders_of_resolved {cs : List Customer} {ps : List Product}
    (stored : List OrderRec) {batch : List OrderRec} {o : OrderRec}
    (ho : o ∈ resolvedOrders cs ps batch) :
    o ∈ importOrders cs ps stored batch := by
  unfold importOrders
  by_cases h : o ∈ stored
  · exact List.mem_append_left _ h
  · exact List.mem_append_right _ (List.mem_filter.mpr ⟨ho, by simpa using h⟩)

theorem importOrders_idem (cs : List Customer) (ps : List Product)
    (stored batch : List OrderRec) :
    importOrders cs ps (importOrders cs ps stored batch) batch =
      importOrders cs ps stored batch := by
  have hnil : (resolvedOrders cs ps batch).filter
      (fun o => decide (o ∉ importOrders cs ps stored batch)) = [] := by
    rw [List.filter_eq_nil_iff]
    intro o ho
    simpa using mem_importOrders_of_resolved stored ho
  change importOrders cs ps stored batch ++ (resolvedOrders cs ps batch).filter
    (fun o => decide (o ∉ importOrders cs ps stored batch)) =
      importOrders cs ps stored batch
  rw [hnil, List.append_nil]

theorem cmd_import_idem (s : StoreA) (b : BatchA) :
    cmd_import (cmd_import s b) b = cmd_import s b := by
  show StoreA.mk _ _ _ = StoreA.mk _ _ _
  rw [show (cmd_import s b).customers =
        importCustomers s.customers b.customers from rfl,
      show (cmd_import s b).products =
        importProducts s.products b.products from rfl,
      show (cmd_import s b).orders =
        importOrders (importCustomers s.customers b.customers)
          (importProducts s.products b.products) s.orders b.orders from rfl,
      importCustomers_idem, importProducts_idem, importOrders_idem]

/-! ## Claim theorems -/

/-- C1: importing the same formatted batch twice against the same store
yields the same store contents as importing it once, for both families:
the second commerce-family run inserts no duplicate customer (by email),
product (by SKU) or order (by its full tuple), and the catalog-family run
is a deterministic function of its input batch. -/
theorem claim_C1_import_idempotent :
    ∀ (s : StoreA) (b : BatchA) (sB : StoreB) (users : List RawUser)
      (posts : List RawPost) (comments : List RawComment),
      cmd_import (cmd_import s b) b = cmd_import s b ∧
        import_data users posts comments
            (import_data users posts comments sB) =
          import_data users posts comments sB :=
  fun s b _ _ _ _ => ⟨cmd_import_idem s b, rfl⟩

/-- C2 counterexample: an author stored before a catalog-family import is
gone afterwards — `import_data` resets the tables first, so import is not
preservation-only as the claim states. -/
theorem claim_C2_counterexample :
    (⟨1, "Alice", "bio"⟩ : Author) ∈
        (StoreB.mk [⟨1, "Alice", "bio"⟩] [] []).authors ∧
      (⟨1, "Alice", "bio"⟩ : Author) ∉
        (import_data [] [] [] (StoreB.mk [⟨1, "Alice", "bio"⟩] [] [])).authors :=
  ⟨by decide, by decide⟩

/-- C2 amended: the commerce-family import never deletes or overwrites a
stored row — the prior store contents remain as an unchanged prefix of each
table — but the catalog-family `import_data` begins by invoking the reset
operation, so its result is independent of (and destroys) the prior store
contents; reset, alone or as invoked by `import_data`, is the destructive
path. -/
theorem claim_C2_amended :
    ∀ (s : StoreA) (b : BatchA) (sB : StoreB) (users : List RawUser)
      (posts : List RawPost) (comments : List RawComment),
      (s.customers <+: (cmd_import s b).customers ∧
        s.products <+: (cmd_import s b).products ∧
        s.orders <+: (cmd_import s b).orders) ∧
        import_data users posts comments sB =
          import_data users posts comments emptyStoreB := by
  intro s b sB users posts comments
  refine ⟨⟨?_, ?_, ?_⟩, rfl⟩
  · exact prefix_bulkCreateSkip _ _
  · exact prefix_bulkCreateSkip _ _
  · exact ⟨_, rfl⟩

/-- C3 counterexample: with the customers file present and the products file
missing, the clean stage aborts but has already written the cleaned
customers file — partial output exists, contradicting the claim. -/
theorem claim_C3_counterexample :
    (cmd_clean ⟨true, false, true⟩).ok = false ∧
      (cmd_clean ⟨true, false, true⟩).written = ["customers_cleaned.csv"] ∧
      (cmd_clean ⟨true, false, true⟩).written ≠ [] := by
  refine ⟨rfl, rfl, ?_⟩
  decide

/-- C3 amended: a missing raw input aborts the clean stage (it never
reports success and never writes the final orders output), but outputs
written before the abort remain: only a missing customers file — the first
read — guarantees that no cleaned file at all is written. -/
theorem claim_C3_amended :
    ∀ fs : RawFilesA,
      ((cmd_clean fs).ok = false ↔
        (fs.customers = false ∨ fs.products = false ∨ fs.orders = false)) ∧
        (fs.customers = false → (cmd_clean fs).written = []) ∧
        ((cmd_clean fs).ok = false →
          "orders_cleaned.csv" ∉ (cmd_clean fs).written) := by
  intro fs
  obtain ⟨c, p, o⟩ := fs
  cases c <;> cases p <;> cases o <;> exact ⟨by decide, by decide, by decide⟩

/-- C3 amended, witness: a run with the customers file missing writes
nothing; a run with the orders file missing does not write the orders
output. -/
theorem claim_C3_amended_witness :
    (cmd_clean ⟨false, true, true⟩).written = [] ∧
      "orders_cleaned.csv" ∉ (cmd_clean ⟨true, true, false⟩).written :=
  ⟨(claim_C3_amended ⟨false, true, true⟩).2.1 rfl,
    (claim_C3_amended ⟨true, true, false⟩).2.2 (by decide)⟩

/-! ## Rounding characterization used by C4 -/

theorem ratFloor_eq_intFloor (q : ℚ) : q.floor = ⌊q⌋ := by
  rw [Rat.floor_def']
  rw [Rat.floor_def]

theorem halfEvenCents_eq (q : ℚ) :
    halfEvenCents q =
      if 100 * q - ⌊100 * q⌋ < 1 / 2 then ⌊100 * q⌋
      else if 1 / 2 < 100 * q - ⌊100 * q⌋ then ⌊100 * q⌋ + 1
      else if ⌊100 * q⌋ % 2 = 0 then ⌊100 * q⌋ else ⌊100 * q⌋ + 1 := by
  unfold halfEvenCents
  simp only [ratFloor_eq_intFloor]

/-- `halfEvenCents` is a correct round-half-to-even at two decimal places:
the result is within half a cent, and at an exact half-cent tie it is the
even neighbour. -/
theorem halfEvenCents_nearest (q : ℚ) :
    |100 * q - (halfEvenCents q : ℚ)| < 1 / 2 ∨
      (|100 * q - (halfEvenCents q : ℚ)| = 1 / 2 ∧ halfEvenCents q % 2 = 0) := by
  rw [halfEvenCents_eq]
  have h0 : ((⌊100 * q⌋ : ℤ) : ℚ) ≤ 100 * q := Int.floor_le (100 * q)
  have h1 : 100 * q < ⌊100 * q⌋ + 1 := Int.lt_floor_add_one (100 * q)
  split_ifs with hA hB hC
  · left
    rw [abs_of_nonneg (by linarith)]
    linarith
  · left
    have : ((⌊100 * q⌋ + 1 : ℤ) : ℚ) = (⌊100 * q⌋ : ℚ) + 1 := by push_cast; ring
    rw [this, abs_of_nonpos (by linarith)]
    linarith
  · right
    refine ⟨?_, hC⟩
    rw [abs_of_nonneg (by linarith)]
    linarith
  · right
    have hcast : ((⌊100 * q⌋ + 1 : ℤ) : ℚ) = (⌊100 * q⌋ : ℚ) + 1 := by
      push_cast; ring
    refine ⟨?_, by omega⟩
    rw [hcast, abs_of_nonpos (by linarith)]
    linarith

/-- C4 counterexample: the format stage emits `"0.12"` for the cleaned
price `"0.125"`, not the claimed half-up result `"0.13"`, and emits
`"2.67"` for the exact decimal tie `"2.675"`: pandas parses the all-numeric
column as `float64` and `Decimal.quantize` rounds the resulting double with
the default half-even context rounding. -/
theorem claim_C4_counterexample :
    (formatProducts [⟨"S1", "N", "0.125", true⟩]).map (fun p => p.price)
        = ["0.12"] ∧
      (formatProducts [⟨"S1", "N", "0.125", true⟩]).map (fun p => p.price)
        ≠ ["0.13"] ∧
      (formatProducts [⟨"S1", "N", "2.675", true⟩]).map (fun p => p.price)
        = ["2.67"] := by
  with_unfolding_all decide

/-- C4 amended: the format stage re-reads the cleaned CSV, so when the
price column is all-numeric with a decimal point it is parsed as `float64`
and every price is the half-even (banker's) two-decimal quantization of the
IEEE-754 double nearest the cleaned string — within half a cent of that
double, taking the even neighbour at the double's exact half-cent ties — so
`"0.125"` formats as `"0.12"`, and the exact decimal tie `"2.675"` formats
as `"2.67"`, one cent below the exact half-even value `"2.68"`; when the
column has a non-numeric entry the strings are kept and each parseable
price is quantized half-even exactly.  Ties are never rounded away from
zero. -/
theorem claim_C4_price_format :
    ∀ (l : List Product) (s : String) (q : ℚ),
      (priceColKind (l.map fun p => p.price) = PriceColKind.floatCol →
        formatProducts l = l.map fun p =>
          { p with price :=
              to_decimal_str_float ((parseUnsignedQ p.price.data).getD 0) }) ∧
        (priceColKind (l.map fun p => p.price) = PriceColKind.objCol →
          formatProducts l = l.map fun p =>
            { p with price := to_decimal_str p.price }) ∧
        (parseUnsignedQ s.data = some q →
          to_decimal_str_float ((parseUnsignedQ s.data).getD 0)
              = centsToDecString (halfEvenCents (fl q)) ∧
            (|100 * fl q - (halfEvenCents (fl q) : ℚ)| < 1 / 2 ∨
              (|100 * fl q - (halfEvenCents (fl q) : ℚ)| = 1 / 2 ∧
                halfEvenCents (fl q) % 2 = 0))) ∧
        (parseUnsignedQ s.data = some q →
          to_decimal_str s = centsToDecString (halfEvenCents q) ∧
            (|100 * q - (halfEvenCents q : ℚ)| < 1 / 2 ∨
              (|100 * q - (halfEvenCents q : ℚ)| = 1 / 2 ∧
                halfEvenCents q % 2 = 0))) ∧
        centsToDecString (halfEvenCents (2675 / 1000 : ℚ)) = "2.68" ∧
        to_decimal_str_float (2675 / 1000 : ℚ) = "2.67" := by
  intro l s q
  refine ⟨?_, ?_, ?_, ?_, by with_unfolding_all decide,
    by with_unfolding_all decide⟩
  · intro h
    unfold formatProducts
    rw [h]
  · intro h
    unfold formatProducts
    rw [h]
  · intro h
    rw [h]
    exact ⟨rfl, halfEvenCents_nearest (fl q)⟩
  · intro h
    refine ⟨?_, halfEvenCents_nearest q⟩
    unfold to_decimal_str
    rw [h]

/-- C4 amended, witness: a one-row batch with price `"2.675"` takes the
`float64` path and formats as the double's quantization `"2.67"`; the
string `"0.125"` on the `object` path quantizes half-even exactly. -/
theorem claim_C4_price_format_witness :
    (formatProducts [⟨"S1", "N", "2.675", true⟩]
        = [(⟨"S1", "N", "2.675", true⟩ : Product)].map fun p =>
            { p with price :=
                to_decimal_str_float ((parseUnsignedQ p.price.data).getD 0) }) ∧
      (to_decimal_str_float ((parseUnsignedQ "2.675".data).getD 0)
          = centsToDecString (halfEvenCents (fl (2675 / 1000 : ℚ))) ∧
        (|100 * fl (2675 / 1000 : ℚ)
            - (halfEvenCents (fl (2675 / 1000 : ℚ)) : ℚ)| < 1 / 2 ∨
          (|100 * fl (2675 / 1000 : ℚ)
              - (halfEvenCents (fl (2675 / 1000 : ℚ)) : ℚ)| = 1 / 2 ∧
            halfEvenCents (fl (2675 / 1000 : ℚ)) % 2 = 0))) ∧
      to_decimal_str "0.125" = centsToDecString (halfEvenCents (1 / 8)) ∧
        (|100 * (1 / 8 : ℚ) - (halfEvenCents (1 / 8 : ℚ) : ℚ)| < 1 / 2 ∨
          (|100 * (1 / 8 : ℚ) - (halfEvenCents (1 / 8 : ℚ) : ℚ)| = 1 / 2 ∧
            halfEvenCents (1 / 8 : ℚ) % 2 = 0)) :=
  ⟨(claim_C4_price_format [⟨"S1", "N", "2.675", true⟩] "" 0).1
      (by with_unfolding_all decide),
    (claim_C4_price_format [] "2.675" (2675 / 1000)).2.2.1
      (by with_unfolding_all decide),
    (claim_C4_price_format [] "0.125" (1 / 8)).2.2.2.1
      (by with_unfolding_all decide)⟩

/-- Lower bound used by C6: a value at least 5 quantizes half-up to at
least 500 cents. -/
theorem halfUpCents_ge_500 {q : ℚ} (h : 5 ≤ q) : 500 ≤ halfUpCents q := by
  unfold halfUpCents
  rw [if_pos (by linarith), ratFloor_eq_intFloor, Int.le_floor]
  push_cast
  linarith

/-- C5 counterexample: a raw order whose quantity field is `"0"` is kept by
the cleaner with quantity `0` — the cleaned batch violates positivity. -/
theorem claim_C5_counterexample :
    (cleanOrders [⟨some "a@b.com", some "SKU1", some "0", some "2023-12-31",
        some "x"⟩]).map (fun o => o.quantity) = [0] ∧
      ¬ ∀ o ∈ cleanOrders [⟨some "a@b.com", some "SKU1", some "0",
          some "2023-12-31", some "x"⟩], 0 < o.quantity := by
  with_unfolding_all decide

/-- C5 amended: a quantity that does not parse as a number defaults to `1`,
and a parseable quantity is truncated toward zero and kept as is — cleaned
order records can therefore carry zero or negative quantities; every
cleaned order's quantity arises this way from some raw row. -/
theorem claim_C5_quantity_default :
    ∀ raw : Option String,
      (parseNumericQ (pyStrip (astypeStr raw)) = none →
        cleanQuantity raw = 1) ∧
        (∀ q : ℚ, parseNumericQ (pyStrip (astypeStr raw)) = some q →
          cleanQuantity raw = truncInt q) ∧
        ∀ (rows : List RawOrder) (o : OrderRec), o ∈ cleanOrders rows →
          ∃ r ∈ rows, o.quantity = cleanQuantity r.quantity := by
  intro raw
  refine ⟨?_, ?_, ?_⟩
  · intro h
    unfold cleanQuantity
    rw [h]
  · intro q h
    unfold cleanQuantity
    rw [h]
  · intro rows o ho
    have h1 : o ∈ rows.map cleanOrderRow :=
      List.mem_of_mem_filter ho
    rcases List.mem_map.mp h1 with ⟨r, hr, rfl⟩
    exact ⟨r, hr, rfl⟩

/-- C5 amended, witness: `"two"` defaults to 1, `"-2"` is kept as the
truncation of `-2`, and a concrete cleaned order's quantity comes from its
raw row. -/
theorem claim_C5_quantity_default_witness :
    cleanQuantity (some "two") = 1 ∧
      cleanQuantity (some "-2") = truncInt (-2) ∧
      ∃ r ∈ [(⟨some "a@b.com", some "SKU1", some "0", some "2023-12-31",
          some "x"⟩ : RawOrder)],
        (cleanOrderRow ⟨some "a@b.com", some "SKU1", some "0",
          some "2023-12-31", some "x"⟩).quantity = cleanQuantity r.quantity :=
  ⟨(claim_C5_quantity_default (some "two")).1 (by with_unfolding_all decide),
    (claim_C5_quantity_default (some "-2")).2.1 (-2)
      (by with_unfolding_all decide),
    (claim_C5_quantity_default (some "0")).2.2
      [⟨some "a@b.com", some "SKU1", some "0", some "2023-12-31", some "x"⟩]
      (cleanOrderRow ⟨some "a@b.com", some "SKU1", some "0",
        some "2023-12-31", some "x"⟩)
      (by with_unfolding_all decide)⟩

/-- C6 counterexample: for a post with views=305, likes=38, dislikes=0 the
code's price is 5.07 (507 cents), while `max(305/120 + 38/15 - 0/25, 5.00)`
rounded half-up to two decimals is 5.08 (508 cents): the heuristic is
evaluated in binary floating point, which at this decimal tie falls below
the exact value. -/
theorem claim_C6_counterexample :
    safe_price 305 38 0 = 507 ∧
      halfUpCents (max ((305 : ℚ) / 120 + (38 : ℚ) / 15 - (0 : ℚ) / 25) 5)
        = 508 := by
  with_unfolding_all decide

/-- C6 amended: the derived book price is
`max(views/120 + likes/15 - dislikes/25, 5.00)` evaluated in IEEE-754
double precision, rounded half-up to two decimals (which can differ by one
cent from exact-arithmetic half-up at decimal ties); a post with all-zero
counts yields exactly 5.00, and no derived price is ever below 5.00. -/
theorem claim_C6_price_floor :
    ∀ views likes dislikes : ℤ,
      safe_price views likes dislikes =
        halfUpCents (max (fl (fl (fl ((views : ℚ) / 120) +
          fl ((likes : ℚ) / 15)) - fl ((dislikes : ℚ) / 25))) 5) ∧
        500 ≤ safe_price views likes dislikes ∧
        safe_price 0 0 0 = 500 ∧
        ∀ (p : RawPost) (ids : List ℤ),
          (bookOfPost ids p).price = safe_price p.views p.likes p.dislikes := by
  intro views likes dislikes
  refine ⟨rfl, ?_, by with_unfolding_all decide, fun p ids => rfl⟩
  exact halfUpCents_ge_500 (le_max_right _ _)

/-- C7: date normalization tries `%Y-%m-%d`, `%Y/%m/%d`, `%d-%m-%Y`,
`%d/%m/%Y` in that order on the stripped input, returns the ISO form of the
first successful parse and `""` when none matches (`"31-12-2023"` cleans to
`"2023-12-31"`, `"not-a-date"` to `""`), and the cleaner keeps no order row
whose normalized date is empty. -/
theorem claim_C7_date_normalization :
    ∀ s : String,
      clean_date (some "31-12-2023") = "2023-12-31" ∧
        clean_date (some "not-a-date") = "" ∧
        (∀ r, strptimeDate .ymd '-' (pyStrip s) = some r →
          clean_date (some s) = r) ∧
        (strptimeDate .ymd '-' (pyStrip s) = none →
          ∀ r, strptimeDate .ymd '/' (pyStrip s) = some r →
            clean_date (some s) = r) ∧
        (strptimeDate .ymd '-' (pyStrip s) = none →
          strptimeDate .ymd '/' (pyStrip s) = none →
          ∀ r, strptimeDate .dmy '-' (pyStrip s) = some r →
            clean_date (some s) = r) ∧
        (strptimeDate .ymd '-' (pyStrip s) = none →
          strptimeDate .ymd '/' (pyStrip s) = none →
          strptimeDate .dmy '-' (pyStrip s) = none →
          ∀ r, strptimeDate .dmy '/' (pyStrip s) = some r →
            clean_date (some s) = r) ∧
        (strptimeDate .ymd '-' (pyStrip s) = none →
          strptimeDate .ymd '/' (pyStrip s) = none →
          strptimeDate .dmy '-' (pyStrip s) = none →
          strptimeDate .dmy '/' (pyStrip s) = none →
          clean_date (some s) = "") ∧
        ∀ (rows : List RawOrder) (o : OrderRec), o ∈ cleanOrders rows →
          o.order_date ≠ "" := by
  intro s
  refine ⟨by decide, by decide, ?_, ?_, ?_, ?_, ?_, ?_⟩
  · intro r h
    simp [clean_date, dateFormats, tryFormats, h]
  · intro h1 r h
    simp [clean_date, dateFormats, tryFormats, h1, h]
  · intro h1 h2 r h
    simp [clean_date, dateFormats, tryFormats, h1, h2, h]
  · intro h1 h2 h3 r h
    simp [clean_date, dateFormats, tryFormats, h1, h2, h3, h]
  · intro h1 h2 h3 h4
    simp [clean_date, dateFormats, tryFormats, h1, h2, h3, h4]
  · intro rows o ho
    have h2 := (List.mem_filter.mp ho).2
    simp only [Bool.and_eq_true, decide_eq_true_eq] at h2
    exact h2.2

/-- C7 witness: `" 31/12/2023 "` parses via the fourth format after the
first three fail, `"x/y/z"` fails all four, and a concrete cleaned order
has a non-empty date. -/
theorem claim_C7_date_normalization_witness :
    clean_date (some " 31/12/2023 ") = "2023-12-31" ∧
      clean_date (some "x/y/z") = "" ∧
      (cleanOrderRow ⟨some "a@b.com", some "S1", some "1", some "2023-12-31",
        some ""⟩).order_date ≠ "" :=
  ⟨(claim_C7_date_normalization " 31/12/2023 ").2.2.2.2.2.1
      (by decide) (by decide) (by decide) "2023-12-31" (by decide),
    (claim_C7_date_normalization "x/y/z").2.2.2.2.2.2.1
      (by decide) (by decide) (by decide) (by decide),
    (claim_C7_date_normalization "").2.2.2.2.2.2.2
      [⟨some "a@b.com", some "S1", some "1", some "2023-12-31", some ""⟩]
      (cleanOrderRow ⟨some "a@b.com", some "S1", some "1", some "2023-12-31",
        some ""⟩)
      (by with_unfolding_all decide)⟩

/-- C8: the referential-gap policy is asymmetric — an imported order always
has a stored customer and a stored product (rows with an unresolvable email
or SKU are dropped), a review whose book id is not accepted is dropped,
while a book with an unresolvable author id is kept (no post is dropped)
and reassigned to the first id of the accepted author set. -/
theorem claim_C8_referential_policy :
    (∀ (s : StoreA) (b : BatchA) (o : OrderRec), o ∈ (cmd_import s b).orders →
      o ∈ s.orders ∨
        ((∃ c ∈ (cmd_import s b).customers, c.email = o.customer_email) ∧
          ∃ p ∈ (cmd_import s b).products, p.sku = o.product_sku)) ∧
      (∀ (comments : List RawComment) (book_ids : List ℤ) (r : Review),
        r ∈ clean_reviews comments book_ids → r.book_id ∈ book_ids) ∧
      ∀ (posts : List RawPost) (ids : List ℤ),
        (clean_books posts ids).length = posts.length ∧
          ∀ p ∈ posts, (∀ v, p.userId = some v → v ∉ ids) →
            ∃ bk ∈ clean_books posts ids,
              bk.id = p.id ∧ bk.author_id = ids.head? := by
  refine ⟨?_, ?_, ?_⟩
  · intro s b o ho
    have ho' : o ∈ importOrders (importCustomers s.customers b.customers)
        (importProducts s.products b.products) s.orders b.orders := ho
    unfold importOrders at ho'
    rcases List.mem_append.mp ho' with h | h
    · exact Or.inl h
    · right
      have h1 : o ∈ resolvedOrders (importCustomers s.customers b.customers)
          (importProducts s.products b.products) b.orders :=
        List.mem_of_mem_filter h
      unfold resolvedOrders at h1
      rcases List.mem_map.mp h1 with ⟨r, hr, rfl⟩
      have h2 := (List.mem_filter.mp hr).2
      simp only [Bool.and_eq_true, decide_eq_true_eq] at h2
      exact h2
  · intro comments ids r hr
    unfold clean_reviews at hr
    rcases List.mem_filterMap.mp hr with ⟨c, _, hcr⟩
    cases hpost : c.postId with
    | none => rw [hpost] at hcr; cases hcr
    | some b =>
      rw [hpost] at hcr
      have hcr' : (if b ∈ ids then some (reviewOfComment c b) else none) =
          some r := hcr
      by_cases hb : b ∈ ids
      · rw [if_pos hb] at hcr'
        cases hcr'
        exact hb
      · rw [if_neg hb] at hcr'; cases hcr'
  · intro posts ids
    refine ⟨List.length_map posts (bookOfPost ids), ?_⟩
    intro p hp hfree
    refine ⟨bookOfPost ids p, List.mem_map.mpr ⟨p, hp, rfl⟩, rfl, ?_⟩
    cases hu : p.userId with
    | none => simp [bookOfPost, hu]
    | some v => simp [bookOfPost, hu, hfree v hu]

/-- C8 witness: a stored order stays stored when importing an empty batch;
a review for accepted book id 5 indeed cites an accepted id; a post whose
author id 9 is not accepted yields a book reassigned to the first accepted
author id 7. -/
theorem claim_C8_referential_policy_witness :
    ((⟨"a@b.com", "S1", 1, "2023-12-31", ""⟩ : OrderRec) ∈
        [(⟨"a@b.com", "S1", 1, "2023-12-31", ""⟩ : OrderRec)] ∨
      ((∃ c ∈ (cmd_import ⟨[], [], [⟨"a@b.com", "S1", 1, "2023-12-31", ""⟩]⟩
            ⟨[], [], []⟩).customers, c.email = "a@b.com") ∧
        ∃ p ∈ (cmd_import ⟨[], [], [⟨"a@b.com", "S1", 1, "2023-12-31", ""⟩]⟩
            ⟨[], [], []⟩).products, p.sku = "S1")) ∧
      (reviewOfComment ⟨1, some 5, 0, none⟩ 5).book_id ∈ [(5 : ℤ)] ∧
      ∃ bk ∈ clean_books [⟨3, some 9, none, 0, 0, 0⟩] [7],
        bk.id = 3 ∧ bk.author_id = ([7] : List ℤ).head? :=
  ⟨claim_C8_referential_policy.1
      ⟨[], [], [⟨"a@b.com", "S1", 1, "2023-12-31", ""⟩]⟩ ⟨[], [], []⟩
      ⟨"a@b.com", "S1", 1, "2023-12-31", ""⟩ (by decide),
    claim_C8_referential_policy.2.1 [⟨1, some 5, 0, none⟩] [5]
      (reviewOfComment ⟨1, some 5, 0, none⟩ 5) (by decide),
    (claim_C8_referential_policy.2.2 [⟨3, some 9, none, 0, 0, 0⟩] [7]).2
      ⟨3, some 9, none, 0, 0, 0⟩ (List.mem_singleton.mpr rfl)
      (fun v hv => by
        injection hv with h
        subst h
        decide)⟩

/-- C9: customer cleaning drops every row whose normalized email is empty
and keeps exactly the first occurrence, in input order, of each normalized
email; `"  ALEX.CHAN5@gmail.com "` and `"alex.chan5@gmail.com"` normalize
equal, the three-row example cleans to one record, and importing it into an
empty store inserts exactly that one row. -/
theorem claim_C9_customer_cleaning :
    (clean_email (some "  ALEX.CHAN5@gmail.com ") = "alex.chan5@gmail.com" ∧
      clean_email (some "alex.chan5@gmail.com") = "alex.chan5@gmail.com") ∧
      (∀ (rows : List RawCustomer) (c : Customer),
        c ∈ cleanCustomers rows → c.email ≠ "") ∧
      (∀ rows : List RawCustomer,
        ((cleanCustomers rows).map (fun c => c.email)).Nodup) ∧
      (∀ (rows : List RawCustomer) (c : Customer), c ∈ cleanCustomers rows →
        ∃ pre post,
          (rows.map cleanCustomerRow).filter (fun c => decide (c.email ≠ ""))
            = pre ++ c :: post ∧ ∀ y ∈ pre, y.email ≠ c.email) ∧
      (∀ (rows : List RawCustomer) (r : RawCustomer), r ∈ rows →
        (cleanCustomerRow r).email ≠ "" →
        (cleanCustomerRow r).email ∈
          (cleanCustomers rows).map (fun c => c.email)) ∧
      cleanCustomers
          [⟨some "Alex Chan", some "  ALEX.CHAN5@gmail.com ", some "91234567"⟩,
            ⟨some "A. Chan", some "alex.chan5@gmail.com", some "91234567"⟩,
            ⟨some "Empty", some "", none⟩]
          = [⟨"Alex Chan", "alex.chan5@gmail.com", "91234567"⟩] ∧
        importCustomers [] (formatCustomers (cleanCustomers
            [⟨some "Alex Chan", some "  ALEX.CHAN5@gmail.com ", some "91234567"⟩,
              ⟨some "A. Chan", some "alex.chan5@gmail.com", some "91234567"⟩,
              ⟨some "Empty", some "", none⟩]))
          = [⟨"Alex Chan", "alex.chan5@gmail.com", "91234567"⟩] := by
  refine ⟨⟨by decide, by decide⟩, ?_, ?_, ?_, ?_, by decide, by decide⟩
  · intro rows c hc
    have h1 : c ∈ (rows.map cleanCustomerRow).filter
        (fun c => decide (c.email ≠ "")) :=
      (dedupByKey_sublist _).subset hc
    have h2 := (List.mem_filter.mp h1).2
    simpa using h2
  · intro rows
    exact dedupByKey_keys_nodup _
  · intro rows c hc
    exact dedupByKey_first_occurrence hc
  · intro rows r hr hne
    exact dedupByKey_complete (List.mem_filter.mpr
      ⟨List.mem_map.mpr ⟨r, hr, rfl⟩, by simpa using hne⟩)

/-- C9 witness: the general parts instantiated on the three-row example
batch and its single cleaned record. -/
theorem claim_C9_customer_cleaning_witness :
    (⟨"Alex Chan", "alex.chan5@gmail.com", "91234567"⟩ : Customer).email ≠ "" ∧
      (∃ pre post,
        ([(⟨some "Alex Chan", some "  ALEX.CHAN5@gmail.com ",
              some "91234567"⟩ : RawCustomer),
            ⟨some "A. Chan", some "alex.chan5@gmail.com", some "91234567"⟩,
            ⟨some "Empty", some "", none⟩].map cleanCustomerRow).filter
            (fun c => decide (c.email ≠ ""))
          = pre ++ (⟨"Alex Chan", "alex.chan5@gmail.com", "91234567"⟩
              : Customer) :: post ∧
          ∀ y ∈ pre, y.email ≠ "alex.chan5@gmail.com") ∧
      (cleanCustomerRow ⟨some "A. Chan", some "alex.chan5@gmail.com",
          some "91234567"⟩).email ∈
        (cleanCustomers
          [⟨some "Alex Chan", some "  ALEX.CHAN5@gmail.com ", some "91234567"⟩,
            ⟨some "A. Chan", some "alex.chan5@gmail.com", some "91234567"⟩,
            ⟨some "Empty", some "", none⟩]).map (fun c => c.email) :=
  ⟨claim_C9_customer_cleaning.2.1
      [⟨some "Alex Chan", some "  ALEX.CHAN5@gmail.com ", some "91234567"⟩,
        ⟨some "A. Chan", some "alex.chan5@gmail.com", some "91234567"⟩,
        ⟨some "Empty", some "", none⟩]
      ⟨"Alex Chan", "alex.chan5@gmail.com", "91234567"⟩ (by decide),
    claim_C9_customer_cleaning.2.2.2.1
      [⟨some "Alex Chan", some "  ALEX.CHAN5@gmail.com ", some "91234567"⟩,
        ⟨some "A. Chan", some "alex.chan5@gmail.com", some "91234567"⟩,
        ⟨some "Empty", some "", none⟩]
      ⟨"Alex Chan", "alex.chan5@gmail.com", "91234567"⟩ (by decide),
    claim_C9_customer_cleaning.2.2.2.2.1
      [⟨some "Alex Chan", some "  ALEX.CHAN5@gmail.com ", some "91234567"⟩,
        ⟨some "A. Chan", some "alex.chan5@gmail.com", some "91234567"⟩,
        ⟨some "Empty", some "", none⟩]
      ⟨some "A. Chan", some "alex.chan5@gmail.com", some "91234567"⟩
      (List.mem_cons_of_mem _ (List.mem_cons_self _ _)) (by decide)⟩

/-- C10: when the accepted author id set is empty, every book is assigned
the author reference `none` — the fallback policy only produces a valid
reference when at least one author was accepted. -/
theorem claim_C10_empty_author_set :
    ∀ (posts : List RawPost) (b : Book),
      b ∈ clean_books posts [] → b.author_id = none := by
  intro posts b hb
  rcases List.mem_map.mp hb with ⟨p, _, rfl⟩
  cases hu : p.userId with
  | none => simp [bookOfPost, hu]
  | some v => simp [bookOfPost, hu]

/-- C10 witness: the book built from a post citing author 9 against an
empty accepted set carries no author reference. -/
theorem claim_C10_empty_author_set_witness :
    (bookOfPost [] ⟨3, some 9, none, 0, 0, 0⟩) ∈
        clean_books [⟨3, some 9, none, 0, 0, 0⟩] [] ∧
      (bookOfPost [] ⟨3, some 9, none, 0, 0, 0⟩).author_id = none :=
  ⟨List.mem_singleton.mpr rfl,
    claim_C10_empty_author_set [⟨3, some 9, none, 0, 0, 0⟩]
      (bookOfPost [] ⟨3, some 9, none, 0, 0, 0⟩)
      (List.mem_singleton.mpr rfl)⟩
